import Mathlib

/-!
Verification of the chainpe-backend validator service and deployment poller.

The Python sources are embedded shallowly:
* `SorobanValidatorService` methods (`src/app/services/soroban_validator.py`)
  become Lean functions; a raised exception is `Except.error` carrying the
  message, a returned dict is an association list of `PyVal` values.
* The polling phase of `deploy_contract` (`src/contracts/payment_validator/deploy.py`)
  becomes a fuel-indexed function over query oracles that returns the final
  outcome together with the trace of queries, submissions and sleeps.
* `int(float(s) * 10_000_000)` is modelled with exact rational arithmetic and
  an explicit round-to-nearest-even function on the binary64 grid.
-/

set_option maxRecDepth 20000

namespace ChainPe

/-- Python truthiness of an optional string: `None` and `""` are falsy. -/
def truthy : Option String → Bool
  | Option.none => false
  | some s => decide (s ≠ "")

/-- A Python value appearing in the dicts returned by the service. -/
inductive PyVal where
  | str (s : String)
  | bool (b : Bool)
  deriving DecidableEq, Repr

/-- A Python dict with string keys, as an association list in insertion order. -/
abbrev PyDict := List (String × PyVal)

/-- Dictionary field lookup. -/
def getField (d : PyDict) (k : String) : Option PyVal :=
  (d.find? (fun kv => kv.1 = k)).map (fun kv => kv.2)

/-! ## Exact model of the binary64 conversion `int(float(s) * 10_000_000)`

Rational values are carried as explicit numerator/denominator pairs
(`Frac`, and `PFrac` for positive values), so that every step is plain
integer arithmetic; `Frac.val` gives the exact rational value a pair
denotes. -/

/-- A positive exact fraction `num / den` (`den` is always a power of two or
ten here, never zero). -/
structure PFrac where
  num : ℕ
  den : ℕ
  deriving DecidableEq, Repr

/-- A signed exact fraction `num / den`. -/
structure Frac where
  num : ℤ
  den : ℕ
  deriving DecidableEq, Repr

/-- The exact rational value of a signed fraction. -/
def Frac.val (x : Frac) : ℚ := (x.num : ℚ) / (x.den : ℚ)

/-- `a ≤ b` on positive fractions, by cross multiplication. -/
def pleq (a b : PFrac) : Bool := a.num * b.den ≤ b.num * a.den

/-- `a < b` on positive fractions, by cross multiplication. -/
def plt (a b : PFrac) : Bool := a.num * b.den < b.num * a.den

/-- `2 ^ e` as a positive fraction, for an integer exponent. -/
def pow2 (e : ℤ) : PFrac :=
  if 0 ≤ e then ⟨2 ^ e.toNat, 1⟩ else ⟨1, 2 ^ (-e).toNat⟩

/-- `q / 2 ^ m` on positive fractions. -/
def divPow2 (q : PFrac) (m : ℤ) : PFrac :=
  if 0 ≤ m then ⟨q.num, q.den * 2 ^ m.toNat⟩ else ⟨q.num * 2 ^ (-m).toNat, q.den⟩

/-- `n * 2 ^ m` as a positive fraction. -/
def mulPow2 (n : ℕ) (m : ℤ) : PFrac :=
  if 0 ≤ m then ⟨n * 2 ^ m.toNat, 1⟩ else ⟨n, 2 ^ (-m).toNat⟩

/-- Round a positive fraction to the nearest natural number, ties to even. -/
def rne (q : PFrac) : ℕ :=
  let f := q.num / q.den
  let r := q.num % q.den
  if 2 * r < q.den then f
  else if q.den < 2 * r then f + 1
  else if f % 2 = 0 then f else f + 1

/-- A Python float value: a finite binary64 value, a signed infinity, or NaN. -/
inductive PyFloat where
  | finite (x : Frac)
  | inf (neg : Bool)
  | nan
  deriving DecidableEq, Repr

/-- Candidate binade exponents: the whole normal range of binary64. -/
def binades : List ℤ := (List.range 2046).map (fun n => (n : ℤ) - 1022)

/-- The binade exponent of a positive fraction: the `e` with `2^e ≤ q < 2^(e+1)`. -/
def binadeExp (q : PFrac) : ℤ :=
  (binades.find? (fun e => pleq (pow2 e) q && plt q (pow2 (e + 1)))).getD 0

/-- Round a positive fraction to the nearest binary64 value: values below the
normal range snap to the subnormal grid of spacing `2^-1074` (underflowing to
zero below half of that), normal values snap to the grid of spacing
`2^(e-52)` of their binade, and a rounded result of `2^1024` or more
overflows to infinity (`none`). -/
def flAbs (q : PFrac) : Option PFrac :=
  if q.num = 0 then some ⟨0, 1⟩
  else if pleq (pow2 1024) q then Option.none
  else
    let e := if plt q (pow2 (-1022)) then (-1022 : ℤ) else binadeExp q
    let r := mulPow2 (rne (divPow2 q (e - 52))) (e - 52)
    if pleq (pow2 1024) r then Option.none else some r

/-- Correctly rounded conversion to binary64 with overflow to infinity, as
performed by Python at `float(...)` conversion and at each float
multiplication. -/
def fl (x : Frac) : PyFloat :=
  if x.num = 0 then PyFloat.finite ⟨0, 1⟩
  else if 0 < x.num then
    match flAbs ⟨x.num.toNat, x.den⟩ with
    | some p => PyFloat.finite ⟨(p.num : ℤ), p.den⟩
    | Option.none => PyFloat.inf false
  else
    match flAbs ⟨(-x.num).toNat, x.den⟩ with
    | some p => PyFloat.finite ⟨-(p.num : ℤ), p.den⟩
    | Option.none => PyFloat.inf true

/-- Multiply an exact fraction by a natural number (the exact product that the
IEEE multiplication then rounds). -/
def mulNat (x : Frac) (k : ℕ) : Frac := ⟨x.num * (k : ℤ), x.den⟩

/-- Python `int(x)` on a float: truncation toward zero. -/
def pyTrunc (x : Frac) : ℤ :=
  if 0 ≤ x.num then ((x.num.toNat / x.den : ℕ) : ℤ)
  else -(((-x.num).toNat / x.den : ℕ) : ℤ)

/-- One decimal digit. -/
def digitVal (c : Char) : Option ℕ :=
  if c.isDigit then some (c.toNat - 48) else Option.none

/-- Read a digit string as a natural number; `none` on any non-digit. -/
def readDigits (cs : List Char) : Option ℕ :=
  cs.foldl
    (fun acc c =>
      match acc, digitVal c with
      | some n, some d => some (10 * n + d)
      | _, _ => Option.none)
    (some 0)

/-- Unsigned decimal numeral, with an optional fractional part: the exact
value `i + f / 10^k` as a fraction over `10^k`. -/
def parsePosDec (cs : List Char) : Option Frac :=
  let ip := cs.takeWhile (fun c => c ≠ '.')
  let rest := cs.dropWhile (fun c => c ≠ '.')
  match rest with
  | [] =>
    if ip.isEmpty then Option.none
    else (readDigits ip).map (fun n => ⟨(n : ℤ), 1⟩)
  | _ :: fp =>
    if ip.isEmpty && fp.isEmpty then Option.none
    else
      match readDigits ip, readDigits fp with
      | some i, some f => some ⟨(i : ℤ) * 10 ^ fp.length + (f : ℤ), 10 ^ fp.length⟩
      | _, _ => Option.none

/-- Negation of an exact fraction. -/
def Frac.neg (x : Frac) : Frac := ⟨-x.num, x.den⟩

/--`x * 10 ^ k` exactly, for an integer exponent. -/
def mulPow10 (x : Frac) (k : ℤ) : Frac :=
  if 0 ≤ k then ⟨x.num * 10 ^ k.toNat, x.den⟩ else ⟨x.num, x.den * 10 ^ (-k).toNat⟩

/-- Exponent of a numeral: optional sign and a nonempty digit string. -/
def parseExp (cs : List Char) : Option ℤ :=
  match cs with
  | '-' :: ds =>
    if ds.isEmpty then Option.none else (readDigits ds).map (fun n => -(n : ℤ))
  | '+' :: ds =>
    if ds.isEmpty then Option.none else (readDigits ds).map (fun n => (n : ℤ))
  | ds =>
    if ds.isEmpty then Option.none else (readDigits ds).map (fun n => (n : ℤ))

/-- Unsigned numeral `mantissa[(e|E)exponent]`, as its exact value. -/
def parseNumeral (cs : List Char) : Option Frac :=
  let mant := cs.takeWhile (fun c => c ≠ 'e' ∧ c ≠ 'E')
  let rest := cs.dropWhile (fun c => c ≠ 'e' ∧ c ≠ 'E')
  match rest with
  | [] => parsePosDec mant
  | _ :: ex =>
    match parsePosDec mant, parseExp ex with
    | some m, some k => some (mulPow10 m k)
    | _, _ => Option.none

/-- Optionally signed numeral, as its exact value. -/
def parseSigned (cs : List Char) : Option Frac :=
  match cs with
  | '-' :: rest => (parseNumeral rest).map Frac.neg
  | '+' :: rest => parseNumeral rest
  | rest => parseNumeral rest

/-- The ASCII whitespace Python strips around a numeral. -/
def isSpace (c : Char) : Bool :=
  c = ' ' || c = '\t' || c = '\n' || c = '\r' || c = '\x0b' || c = '\x0c'

/-- Strip leading and trailing whitespace. -/
def trimWs (cs : List Char) : List Char :=
  ((cs.dropWhile isSpace).reverse.dropWhile isSpace).reverse

/-- The Python 3 underscore rule for numerals: every underscore must be
directly preceded and followed by a decimal digit. -/
def underscoresOKAux : Option Char → List Char → Bool
  | prev, c :: rest =>
    if c = '_' then
      match prev, rest with
      | some p, n :: _ => p.isDigit && n.isDigit && underscoresOKAux (some c) rest
      | _, _ => false
    else underscoresOKAux (some c) rest
  | _, [] => true

/-- Underscore validity of a whole numeral. -/
def underscoresOK (cs : List Char) : Bool := underscoresOKAux Option.none cs

/-- The exact rational value of a finite numeral accepted by Python
`float(s)`: surrounding ASCII whitespace, an optional sign, digit-group
underscores, an optional fractional part and an optional decimal exponent;
`none` for strings `float()` rejects (and for `inf`/`nan`, which denote no
rational). -/
def parseDecimal (s : String) : Option Frac :=
  let cs := trimWs s.toList
  if !underscoresOK cs then Option.none
  else parseSigned (cs.filter (fun c => c ≠ '_'))

/-- Model of Python `float(s)` on ASCII strings: the infinity and NaN
spellings (case-insensitive, optionally signed) give those values, any other
accepted numeral is correctly rounded to binary64 — overflowing to infinity
— and `none` models a raised `ValueError`. -/
def pyFloatOfString (s : String) : Option PyFloat :=
  let cs := trimWs s.toList
  if !underscoresOK cs then Option.none
  else
    let cs := cs.filter (fun c => c ≠ '_')
    let sb : Bool × List Char :=
      match cs with
      | '-' :: rest => (true, rest)
      | '+' :: rest => (false, rest)
      | rest => (false, rest)
    match sb.2.map Char.toLower with
    | ['i', 'n', 'f'] => some (PyFloat.inf sb.1)
    | ['i', 'n', 'f', 'i', 'n', 'i', 't', 'y'] => some (PyFloat.inf sb.1)
    | ['n', 'a', 'n'] => some PyFloat.nan
    | _ => (parseSigned cs).map fl

/-- Multiplication of a Python float by the exactly representable integer
`10_000_000`, with binary64 rounding of the exact product; infinities and
NaN propagate. -/
def mulTenMillion : PyFloat → PyFloat
  | PyFloat.finite x => fl (mulNat x 10000000)
  | PyFloat.inf b => PyFloat.inf b
  | PyFloat.nan => PyFloat.nan

/-- Python `int(x)` on a float: truncation toward zero; an infinity raises
OverflowError and NaN raises ValueError, with these `str(e)` texts. -/
def pyInt : PyFloat → Except String ℤ
  | PyFloat.finite x => Except.ok (pyTrunc x)
  | PyFloat.inf _ => Except.error "cannot convert float infinity to integer"
  | PyFloat.nan => Except.error "cannot convert float NaN to integer"

/-- `str(e)` of the ValueError raised by `float(s)` on a rejected string
(Python quotes the repr of the input; inputs containing quote or escape
characters would be rendered differently). -/
def floatParseErr (s : String) : String :=
  "could not convert string to float: \x27" ++ s ++ "\x27"

/-- The amount conversion `int(float(s) * 10_000_000)` used at
`soroban_validator.py:63` and `soroban_validator.py:146`, with the message
of the exception it raises on failure: the string is converted to a float
(ValueError on a rejected string), multiplied by `10^7` with binary64
rounding, and truncated (OverflowError on an infinity, ValueError on NaN). -/
def toStroopsE (s : String) : Except String ℤ :=
  match pyFloatOfString s with
  | Option.none => Except.error (floatParseErr s)
  | some f => pyInt (mulTenMillion f)

/-- The value of the amount conversion when it does not raise. -/
def amountToStroops (s : String) : Option ℤ := (toStroopsE s).toOption

/-! ## The validator service -/

/-- A Stellar keypair; only the public key is observed by this code. -/
structure Keypair where
  public_key : String
  deriving DecidableEq, Repr

/-- The configuration read by `SorobanValidatorService.__init__`: the two
optional settings (absent attribute or `None` value modelled as `none`). -/
structure Settings where
  PAYMENT_VALIDATOR_CONTRACT_ID : Option String
  BACKEND_SECRET_KEY : Option String

/-- The state of a constructed `SorobanValidatorService`. -/
structure SorobanValidatorService where
  contract_id : Option String
  backend_keypair : Option Keypair
  deriving DecidableEq, Repr

/-- `SorobanValidatorService.__init__`: the contract id is read with a `None`
default, and the backend keypair is built from the secret only when the
`BACKEND_SECRET_KEY` setting is present (`fromSecret` models
`Keypair.from_secret`). -/
def SorobanValidatorService.init (fromSecret : String → Keypair) (s : Settings) :
    SorobanValidatorService :=
  { contract_id := s.PAYMENT_VALIDATOR_CONTRACT_ID
    backend_keypair := s.BACKEND_SECRET_KEY.map fromSecret }

/-- The dict returned by a successful `register_payment_session`. -/
def registeredDict (svc : SorobanValidatorService)
    (session_id merchant_address amount_usdc : String) : PyDict :=
  [("session_id", PyVal.str session_id),
   ("merchant", PyVal.str merchant_address),
   ("amount", PyVal.str amount_usdc),
   ("contract_address", PyVal.str (svc.contract_id.getD "")),
   ("status", PyVal.str "registered")]

/-- `register_payment_session`. Raised exceptions are `Except.error` with the
message; the bare `raise` in the handler re-raises, so a conversion error or a
`load_account` failure (`loadAccount` models the Horizon network call)
propagates to the caller. -/
def register_payment_session (svc : SorobanValidatorService)
    (loadAccount : String → Except String Unit)
    (session_id merchant_address amount_usdc : String) : Except String PyDict :=
  if !truthy svc.contract_id then
    Except.error "Smart contract not deployed. Set PAYMENT_VALIDATOR_CONTRACT_ID in .env"
  else
    match svc.backend_keypair with
    | Option.none =>
      Except.error "Backend secret key required. Set BACKEND_SECRET_KEY in .env"
    | some kp =>
      match toStroopsE amount_usdc with
      | Except.error msg => Except.error msg
      | Except.ok _ =>
        match loadAccount kp.public_key with
        | Except.error e => Except.error e
        | Except.ok _ => Except.ok (registeredDict svc session_id merchant_address amount_usdc)

/-- The fail-open dict returned by `validate_payment` when the contract id or
the backend keypair is missing. -/
def failOpenDict : PyDict :=
  [("valid", PyVal.bool true),
   ("validated_by_contract", PyVal.bool false),
   ("reason", PyVal.str "Contract not deployed")]

/-- The structured failure dict built by the `except` handler of
`validate_payment`. -/
def validationFailedDict (reason : String) : PyDict :=
  [("valid", PyVal.bool false),
   ("validated_by_contract", PyVal.bool true),
   ("reason", PyVal.str reason),
   ("error", PyVal.str "VALIDATION_FAILED")]

/-- The success dict returned by the configured branch of `validate_payment`. -/
def validatedDict (svc : SorobanValidatorService)
    (session_id amount_received paid_asset : String) : PyDict :=
  [("valid", PyVal.bool true),
   ("validated_by_contract", PyVal.bool true),
   ("session_id", PyVal.str session_id),
   ("amount", PyVal.str amount_received),
   ("asset", PyVal.str paid_asset),
   ("contract_address", PyVal.str (svc.contract_id.getD ""))]

/-- `validate_payment`. The unconfigured branch returns the fail-open dict;
the configured branch catches every exception (the amount conversion is the
only raising operation in the `try` block) and returns the structured failure
dict, so the function never raises. -/
def validate_payment (svc : SorobanValidatorService)
    (session_id amount_received paid_asset : String) : Except String PyDict :=
  if !truthy svc.contract_id || svc.backend_keypair.isNone then
    Except.ok failOpenDict
  else
    match toStroopsE amount_received with
    | Except.error msg => Except.ok (validationFailedDict msg)
    | Except.ok _ => Except.ok (validatedDict svc session_id amount_received paid_asset)

/-- The hardcoded example payload returned by `get_session_status`. -/
def sessionStatusDict (session_id : String) : PyDict :=
  [("session_id", PyVal.str session_id),
   ("is_active", PyVal.bool true),
   ("merchant", PyVal.str "GXXX..."),
   ("amount", PyVal.str "10.00")]

/-- `get_session_status`: `None` without a contract id, otherwise the
hardcoded payload (nothing in its `try` block can raise). -/
def get_session_status (svc : SorobanValidatorService) (session_id : String) :
    Option PyDict :=
  if truthy svc.contract_id then some (sessionStatusDict session_id)
  else Option.none

/-! ## The deployment poller of `deploy_contract` (`deploy.py:85-145`)

The polling phase starts after the upload transaction has been submitted.
The outer loop queries the upload transaction up to 60 times with a
2-second sleep after each non-terminal attempt; on `SUCCESS` it submits the
create-contract transaction and the inner loop queries that one up to 60
times.  `exit(1)` raises `SystemExit`, which the `except Exception` handler
does not catch, so it always terminates the process; an ordinary exception
from a query (or from the second submission, or from an inner-loop query)
lands in the outer `except Exception: pass` and the outer loop goes on.

Each status query is an oracle call: `q1 i` is `get_transaction` on the
upload hash at outer attempt `i`, `submit2 i` is the
load-prepare-sign-send of the create-contract transaction performed in the
`SUCCESS` branch of outer attempt `i` (returning the new transaction hash),
and `q2 i j` is `get_transaction` on that hash at inner attempt `j` during
outer attempt `i`.  `Except.error ()` models a raised exception.  Each run
also yields the trace of externally visible events in order. -/

/-- `GetTransactionStatus` of the Soroban RPC. -/
inductive TxStatus where
  | success
  | failed
  | notFound
  deriving DecidableEq, Repr

/-- A transaction-status response: status plus the rest of the response. -/
structure TxResponse where
  status : TxStatus
  payload : String
  deriving DecidableEq, Repr

/-- A status query returns a response or raises. -/
abbrev QueryRes := Except Unit TxResponse

/-- Externally visible events of a polling run. -/
inductive Ev where
  | q1 (i : ℕ)
  | sub (i : ℕ)
  | q2 (i j : ℕ)
  | sleep
  deriving DecidableEq, Repr

/-- Result of the inner loop (`deploy.py:120-133`). -/
inductive InnerRes where
  | ret (h : String)
  | fail (r : TxResponse)
  | timeout
  | exn
  deriving DecidableEq, Repr

/-- The inner loop `for j in range(60)` of `deploy.py:120-131`: return the
deployment hash on `SUCCESS`, `exit(1)` on `FAILED`, sleep 2 seconds and
retry otherwise; a raised query exception escapes to the outer handler
(`InnerRes.exn`); falling off the loop returns `None` (`InnerRes.timeout`). -/
def pollInner (q : ℕ → QueryRes) (h2 : String) (i : ℕ) :
    ℕ → ℕ → InnerRes × List Ev
  | _, 0 => (InnerRes.timeout, [])
  | j, fuel + 1 =>
    match q j with
    | Except.error _ => (InnerRes.exn, [Ev.q2 i j])
    | Except.ok r =>
      match r.status with
      | TxStatus.success => (InnerRes.ret h2, [Ev.q2 i j])
      | TxStatus.failed => (InnerRes.fail r, [Ev.q2 i j])
      | TxStatus.notFound =>
        let rest := pollInner q h2 i (j + 1) fuel
        (rest.1, Ev.q2 i j :: Ev.sleep :: rest.2)

/-- Final outcome of the polling phase of `deploy_contract`. -/
inductive DeployOutcome where
  | ok (h2 : String)
  | retNone
  | failedOuter (r : TxResponse)
  | failedInner (r : TxResponse)
  | timeout
  deriving DecidableEq, Repr

/-- Outcomes that model `exit(1)` after a `FAILED` status. -/
def isExitFail : DeployOutcome → Bool
  | DeployOutcome.failedOuter _ => true
  | DeployOutcome.failedInner _ => true
  | _ => false

/-- The outer loop `for i in range(60)` of `deploy.py:85-145`: on `SUCCESS`
submit the create-contract transaction and run the inner loop; on `FAILED`
`exit(1)`; otherwise — including any exception caught by
`except Exception: pass` — sleep 2 seconds and retry; falling off the loop
prints a timeout and `exit(1)` (`DeployOutcome.timeout`). -/
def pollOuter (q1 : ℕ → QueryRes) (submit2 : ℕ → Except Unit String)
    (q2 : ℕ → ℕ → QueryRes) : ℕ → ℕ → DeployOutcome × List Ev
  | _, 0 => (DeployOutcome.timeout, [])
  | i, fuel + 1 =>
    match q1 i with
    | Except.error _ =>
      let rest := pollOuter q1 submit2 q2 (i + 1) fuel
      (rest.1, Ev.q1 i :: Ev.sleep :: rest.2)
    | Except.ok r =>
      match r.status with
      | TxStatus.failed => (DeployOutcome.failedOuter r, [Ev.q1 i])
      | TxStatus.notFound =>
        let rest := pollOuter q1 submit2 q2 (i + 1) fuel
        (rest.1, Ev.q1 i :: Ev.sleep :: rest.2)
      | TxStatus.success =>
        match submit2 i with
        | Except.error _ =>
          let rest := pollOuter q1 submit2 q2 (i + 1) fuel
          (rest.1, Ev.q1 i :: Ev.sub i :: Ev.sleep :: rest.2)
        | Except.ok h2 =>
          match pollInner (q2 i) h2 i 0 60 with
          | (InnerRes.ret h, evs) => (DeployOutcome.ok h, Ev.q1 i :: Ev.sub i :: evs)
          | (InnerRes.fail r2, evs) =>
            (DeployOutcome.failedInner r2, Ev.q1 i :: Ev.sub i :: evs)
          | (InnerRes.timeout, evs) => (DeployOutcome.retNone, Ev.q1 i :: Ev.sub i :: evs)
          | (InnerRes.exn, evs) =>
            let rest := pollOuter q1 submit2 q2 (i + 1) fuel
            (rest.1, Ev.q1 i :: Ev.sub i :: (evs ++ Ev.sleep :: rest.2))

/-- The whole polling phase: outer attempt budget 60, starting at attempt 0. -/
def deployPoll (q1 : ℕ → QueryRes) (submit2 : ℕ → Except Unit String)
    (q2 : ℕ → ℕ → QueryRes) : DeployOutcome × List Ev :=
  pollOuter q1 submit2 q2 0 60

/-- The status a query result reports (`none` when it raised). -/
def statusOf (x : QueryRes) : Option TxStatus :=
  match x with
  | Except.error _ => Option.none
  | Except.ok r => some r.status

/-- The status reported by a query event under the given oracles (`none` for
non-query events and for queries that raised). -/
def evStatus (q1 : ℕ → QueryRes) (q2 : ℕ → ℕ → QueryRes) : Ev → Option TxStatus
  | Ev.q1 i => statusOf (q1 i)
  | Ev.q2 i j => statusOf (q2 i j)
  | _ => Option.none

/-- Query events of a trace (each models one `get_transaction` call). -/
def isQuery : Ev → Bool
  | Ev.q1 _ => true
  | Ev.q2 _ _ => true
  | _ => false

/-- The trace of `n` consecutive non-terminal outer attempts starting at
attempt `i`: each query is followed by a 2-second sleep. -/
def outerTrace : ℕ → ℕ → List Ev
  | _, 0 => []
  | i, n + 1 => Ev.q1 i :: Ev.sleep :: outerTrace (i + 1) n

/-- The trace of `n` consecutive non-terminal inner attempts during outer
attempt `i`, starting at inner attempt `j`. -/
def innerTrace (i : ℕ) : ℕ → ℕ → List Ev
  | _, 0 => []
  | j, n + 1 => Ev.q2 i j :: Ev.sleep :: innerTrace i (j + 1) n

/-- A query attempt the loop treats as non-terminal: a raised exception or a
reported non-terminal status. -/
def nonTermB (x : QueryRes) : Bool :=
  match x with
  | Except.error _ => true
  | Except.ok r => decide (r.status = TxStatus.notFound)

/-- The first `n` outer queries are all treated as non-terminal. -/
def allNonTerm (q1 : ℕ → QueryRes) (n : ℕ) : Bool :=
  (List.range n).all (fun k => nonTermB (q1 k))

/-- The first `n` queries of an oracle all report `NOT_FOUND`. -/
def allNotFound (q : ℕ → QueryRes) (n : ℕ) : Bool :=
  (List.range n).all (fun k => decide (statusOf (q k) = some TxStatus.notFound))

/-- A trace event that is a query reporting `FAILED`. -/
def failedQB (q1 : ℕ → QueryRes) (q2 : ℕ → ℕ → QueryRes) (e : Ev) : Bool :=
  decide (evStatus q1 q2 e = some TxStatus.failed)

/-! ## Concrete fixtures used by the witnesses -/

/-- A service with neither setting configured. -/
def noCfgSvc : SorobanValidatorService := ⟨Option.none, Option.none⟩

/-- A fully configured service. -/
def cfgSvc : SorobanValidatorService := ⟨some "CDEPLOYED123", some ⟨"GPUBKEY"⟩⟩

/-- A service with a contract id but no backend keypair. -/
def cidOnlySvc : SorobanValidatorService := ⟨some "CDEPLOYED123", Option.none⟩

/-- An account-load oracle that always succeeds. -/
def okLoad : String → Except String Unit := fun _ => Except.ok ()

/-- An upload-status oracle that always reports `FAILED`. -/
def failQ1 : ℕ → QueryRes := fun _ => Except.ok ⟨TxStatus.failed, "boom"⟩

/-- An upload-status oracle that always reports `NOT_FOUND`. -/
def notFoundQ1 : ℕ → QueryRes := fun _ => Except.ok ⟨TxStatus.notFound, "pending"⟩

/-- An upload-status oracle that always raises. -/
def errQ1 : ℕ → QueryRes := fun _ => Except.error ()

/-- An upload-status oracle that always reports `SUCCESS`. -/
def succQ1 : ℕ → QueryRes := fun _ => Except.ok ⟨TxStatus.success, "meta1"⟩

/-- A second-submission oracle that always raises. -/
def errSub : ℕ → Except Unit String := fun _ => Except.error ()

/-- A second-submission oracle that always returns the deployment hash. -/
def okSub : ℕ → Except Unit String := fun _ => Except.ok "HASH2"

/-- A deploy-status oracle that always raises. -/
def errQ2 : ℕ → ℕ → QueryRes := fun _ _ => Except.error ()

/-- A deploy-status oracle that always reports `SUCCESS`. -/
def succQ2 : ℕ → ℕ → QueryRes := fun _ _ => Except.ok ⟨TxStatus.success, "meta2"⟩

/-! ## Claims about the validator service -/

/-- C5: whenever the contract is not configured, `validate_payment` returns,
for every session id, amount and asset, the fail-open dict — `valid` is
`True`, `validated_by_contract` is `False` — and does not raise (the result
is an ordinary return, `Except.ok`). -/
theorem C5_fail_open_no_contract (svc : SorobanValidatorService)
    (hc : truthy svc.contract_id = false) (session_id amount asset : String) :
    validate_payment svc session_id amount asset = Except.ok failOpenDict ∧
    getField failOpenDict "valid" = some (PyVal.bool true) ∧
    getField failOpenDict "validated_by_contract" = some (PyVal.bool false) := by
  refine ⟨?_, rfl, rfl⟩
  simp [validate_payment, hc]

/-- Witness for C5 at a concrete unconfigured service and concrete inputs. -/
theorem C5_fail_open_no_contract_witness :
    truthy noCfgSvc.contract_id = false ∧
    (validate_payment noCfgSvc "sess-1" "10.00" "USDC" = Except.ok failOpenDict ∧
      getField failOpenDict "valid" = some (PyVal.bool true) ∧
      getField failOpenDict "validated_by_contract" = some (PyVal.bool false)) :=
  ⟨rfl, C5_fail_open_no_contract noCfgSvc rfl "sess-1" "10.00" "USDC"⟩

/-- C9: `get_session_status` returns `None` whenever the contract id is not
configured; with a configured contract id it returns, for every session id,
the hardcoded payload whose non-`session_id` fields are the fixed constants
`is_active = True`, `merchant = "GXXX..."`, `amount = "10.00"`. -/
theorem C9_get_session_status (svc : SorobanValidatorService) (session_id : String) :
    (truthy svc.contract_id = false →
      get_session_status svc session_id = Option.none) ∧
    (truthy svc.contract_id = true →
      get_session_status svc session_id = some (sessionStatusDict session_id) ∧
      getField (sessionStatusDict session_id) "is_active" = some (PyVal.bool true) ∧
      getField (sessionStatusDict session_id) "merchant" = some (PyVal.str "GXXX...") ∧
      getField (sessionStatusDict session_id) "amount" = some (PyVal.str "10.00")) := by
  constructor
  · intro h
    simp [get_session_status, h]
  · intro h
    refine ⟨?_, rfl, rfl, rfl⟩
    simp [get_session_status, h]

/-- Witness for C9: both branches at concrete services and a concrete id. -/
theorem C9_get_session_status_witness :
    (truthy noCfgSvc.contract_id = false ∧
      get_session_status noCfgSvc "sess-1" = Option.none) ∧
    (truthy cfgSvc.contract_id = true ∧
      get_session_status cfgSvc "sess-1" = some (sessionStatusDict "sess-1")) :=
  ⟨⟨rfl, (C9_get_session_status noCfgSvc "sess-1").1 rfl⟩,
   ⟨rfl, ((C9_get_session_status cfgSvc "sess-1").2 rfl).1⟩⟩

/-- C10: `validate_payment` takes the fail-open branch also when the contract
id is configured but the backend keypair is missing; a result carrying
`validated_by_contract = True` exists exactly when both the contract id and
the keypair are present; and `__init__` leaves the keypair absent exactly
when the `BACKEND_SECRET_KEY` setting is absent. -/
theorem C10_fail_open_scope (svc : SorobanValidatorService)
    (sid amount asset : String) :
    (truthy svc.contract_id = true → svc.backend_keypair = Option.none →
      validate_payment svc sid amount asset = Except.ok failOpenDict) ∧
    ((∃ d, validate_payment svc sid amount asset = Except.ok d ∧
        getField d "validated_by_contract" = some (PyVal.bool true)) ↔
      (truthy svc.contract_id = true ∧ svc.backend_keypair ≠ Option.none)) ∧
    (∀ (fromSecret : String → Keypair) (stg : Settings),
      (SorobanValidatorService.init fromSecret stg).backend_keypair = Option.none ↔
        stg.BACKEND_SECRET_KEY = Option.none) := by
  refine ⟨?_, ?_, ?_⟩
  · intro hc hk
    simp [validate_payment, hc, hk]
  · constructor
    · rintro ⟨d, hd, hf⟩
      by_contra hnot
      have hfo : validate_payment svc sid amount asset = Except.ok failOpenDict := by
        rcases hcb : truthy svc.contract_id with _ | _
        · simp [validate_payment, hcb]
        · rcases hkb : svc.backend_keypair with _ | kp
          · simp [validate_payment, hcb, hkb]
          · exact absurd ⟨hcb, by simp [hkb]⟩ hnot
      rw [hfo] at hd
      cases hd
      exact absurd hf (by decide)
    · rintro ⟨hc, hk⟩
      rcases h : svc.backend_keypair with _ | kp
      · exact absurd h hk
      · rcases hs : toStroopsE amount with msg | st
        · exact ⟨validationFailedDict msg,
            by simp [validate_payment, hc, h, hs], rfl⟩
        · exact ⟨validatedDict svc sid amount asset,
            by simp [validate_payment, hc, h, hs], rfl⟩
  · intro fromSecret stg
    rcases h : stg.BACKEND_SECRET_KEY with _ | k <;>
      simp [SorobanValidatorService.init, h]

/-- Witness for C10 at a service with a contract id and no keypair. -/
theorem C10_fail_open_scope_witness :
    (truthy cidOnlySvc.contract_id = true ∧
      cidOnlySvc.backend_keypair = Option.none ∧
      validate_payment cidOnlySvc "sess-1" "10.00" "USDC" = Except.ok failOpenDict) ∧
    ¬(∃ d, validate_payment cidOnlySvc "sess-1" "10.00" "USDC" = Except.ok d ∧
        getField d "validated_by_contract" = some (PyVal.bool true)) :=
  ⟨⟨rfl, rfl, (C10_fail_open_scope cidOnlySvc "sess-1" "10.00" "USDC").1 rfl rfl⟩,
   fun hx =>
    (by
      have h := ((C10_fail_open_scope cidOnlySvc "sess-1" "10.00" "USDC").2.1).mp hx
      exact h.2 rfl)⟩

/-- C6 counterexample: with both settings configured and a successful account
load, the amount string `"abc"` makes `register_payment_session` re-raise the
conversion error instead of returning a `"registered"` dict, so registration
can fail even under full configuration. -/
theorem C6_register_counterexample :
    register_payment_session cfgSvc okLoad "sess-1" "GMERCHANT" "abc" =
      Except.error (floatParseErr "abc") := rfl

/-- C6 (amended): a missing contract id or backend key makes
`register_payment_session` raise the corresponding configuration error; when
both are configured it returns the `"registered"` dict for every input whose
amount conversion `int(float(amount) * 10_000_000)` succeeds and whose
account load succeeds, while a conversion that raises (a string `float()`
rejects, or an infinite or NaN scaled value) propagates its exception to the
caller through the bare `raise`. -/
theorem C6_register_config (svc : SorobanValidatorService)
    (loadAccount : String → Except String Unit) (sid maddr amount : String) :
    (truthy svc.contract_id = false →
      register_payment_session svc loadAccount sid maddr amount =
        Except.error "Smart contract not deployed. Set PAYMENT_VALIDATOR_CONTRACT_ID in .env") ∧
    (truthy svc.contract_id = true → svc.backend_keypair = Option.none →
      register_payment_session svc loadAccount sid maddr amount =
        Except.error "Backend secret key required. Set BACKEND_SECRET_KEY in .env") ∧
    (∀ (kp : Keypair) (st : ℤ), truthy svc.contract_id = true →
      svc.backend_keypair = some kp → toStroopsE amount = Except.ok st →
      loadAccount kp.public_key = Except.ok () →
      register_payment_session svc loadAccount sid maddr amount =
        Except.ok (registeredDict svc sid maddr amount) ∧
      getField (registeredDict svc sid maddr amount) "status" =
        some (PyVal.str "registered")) ∧
    (∀ (kp : Keypair) (msg : String), truthy svc.contract_id = true →
      svc.backend_keypair = some kp → toStroopsE amount = Except.error msg →
      register_payment_session svc loadAccount sid maddr amount =
        Except.error msg) := by
  refine ⟨?_, ?_, ?_, ?_⟩
  · intro hc
    simp [register_payment_session, hc]
  · intro hc hk
    simp [register_payment_session, hc, hk]
  · intro kp st hc hk hs hl
    refine ⟨?_, rfl⟩
    simp [register_payment_session, hc, hk, hs, hl]
  · intro kp msg hc hk hs
    simp [register_payment_session, hc, hk, hs]

/-- Witness for C6 (amended) at the configured service: a clean amount
(with surrounding whitespace, as `float()` accepts) registers. -/
theorem C6_register_config_witness :
    truthy cfgSvc.contract_id = true ∧
    cfgSvc.backend_keypair = some ⟨"GPUBKEY"⟩ ∧
    toStroopsE " 10.00" = Except.ok 100000000 ∧
    okLoad "GPUBKEY" = Except.ok () ∧
    register_payment_session cfgSvc okLoad "sess-1" "GMERCHANT" " 10.00" =
      Except.ok (registeredDict cfgSvc "sess-1" "GMERCHANT" " 10.00") :=
  ⟨rfl, rfl, rfl, rfl,
   ((C6_register_config cfgSvc okLoad "sess-1" "GMERCHANT" " 10.00").2.2.1
      ⟨"GPUBKEY"⟩ 100000000 rfl rfl rfl rfl).1⟩

/-- C7: under full configuration `validate_payment` never raises — it always
returns a dict; an exception inside the `try` block (the amount conversion is
the only raising operation: a rejected string, an infinite or a NaN value) is
caught and returned as the structured failure dict carrying the exception
message, with `valid = False`, `validated_by_contract = True` and
`error = "VALIDATION_FAILED"`; without an exception it returns the success
dict with `valid = True` and `validated_by_contract = True`. -/
theorem C7_validate_configured (svc : SorobanValidatorService) (kp : Keypair)
    (hc : truthy svc.contract_id = true) (hk : svc.backend_keypair = some kp)
    (sid amount asset : String) :
    (∃ d, validate_payment svc sid amount asset = Except.ok d) ∧
    (∀ msg, toStroopsE amount = Except.error msg →
      validate_payment svc sid amount asset =
        Except.ok (validationFailedDict msg) ∧
      getField (validationFailedDict msg) "valid" = some (PyVal.bool false) ∧
      getField (validationFailedDict msg) "validated_by_contract" =
        some (PyVal.bool true) ∧
      getField (validationFailedDict msg) "error" =
        some (PyVal.str "VALIDATION_FAILED")) ∧
    (∀ st, toStroopsE amount = Except.ok st →
      validate_payment svc sid amount asset =
        Except.ok (validatedDict svc sid amount asset) ∧
      getField (validatedDict svc sid amount asset) "valid" = some (PyVal.bool true) ∧
      getField (validatedDict svc sid amount asset) "validated_by_contract" =
        some (PyVal.bool true)) := by
  refine ⟨?_, ?_, ?_⟩
  · rcases hs : toStroopsE amount with msg | st
    · exact ⟨validationFailedDict msg,
        by simp [validate_payment, hc, hk, hs]⟩
    · exact ⟨validatedDict svc sid amount asset,
        by simp [validate_payment, hc, hk, hs]⟩
  · intro msg hs
    exact ⟨by simp [validate_payment, hc, hk, hs], rfl, rfl, rfl⟩
  · intro st hs
    exact ⟨by simp [validate_payment, hc, hk, hs], rfl, rfl⟩

/-- Witness for C7 at the configured service: a malformed amount is caught
into the failure dict, and an exponent-form amount succeeds. -/
theorem C7_validate_configured_witness :
    truthy cfgSvc.contract_id = true ∧
    cfgSvc.backend_keypair = some ⟨"GPUBKEY"⟩ ∧
    toStroopsE "abc" = Except.error (floatParseErr "abc") ∧
    validate_payment cfgSvc "sess-1" "abc" "USDC" =
      Except.ok (validationFailedDict (floatParseErr "abc")) ∧
    toStroopsE "1e5" = Except.ok 1000000000000 ∧
    validate_payment cfgSvc "sess-1" "1e5" "USDC" =
      Except.ok (validatedDict cfgSvc "sess-1" "1e5" "USDC") :=
  ⟨rfl, rfl, rfl,
   (((C7_validate_configured cfgSvc ⟨"GPUBKEY"⟩ rfl rfl "sess-1" "abc" "USDC").2.1)
      (floatParseErr "abc") rfl).1,
   rfl,
   (((C7_validate_configured cfgSvc ⟨"GPUBKEY"⟩ rfl rfl "sess-1" "1e5" "USDC").2.2)
      1000000000000 rfl).1⟩

/-- C4 (latent precision bug, spec §3 and §9): the decimal amount `"848.43"`
has two fractional digits (≤ 7) and its exact value in stroops is
`848.43 × 10^7 = 8484300000`, yet the conversion
`int(float("848.43") * 10_000_000)` of the code yields `8484299999` — the
floating-point conversion is not lossless. -/
theorem C4_conversion_not_lossless :
    parseDecimal "848.43" = some ⟨84843, 100⟩ ∧
    Frac.val ⟨84843, 100⟩ * 10 ^ 7 = (8484300000 : ℚ) ∧
    amountToStroops "848.43" = some 8484299999 ∧
    (8484299999 : ℤ) ≠ 8484300000 := by
  refine ⟨by decide, by norm_num [Frac.val], by decide, by decide⟩

/-- Fidelity of the conversion model at the delicate inputs of `float()`:
surrounding whitespace, digit-group underscores, exponent notation, overflow
to infinity with the OverflowError of `int()`, NaN with its ValueError, and
a misplaced underscore rejected by the parse. -/
theorem toStroopsE_fidelity :
    toStroopsE " 10.00" = Except.ok 100000000 ∧
    toStroopsE "1_0" = Except.ok 100000000 ∧
    toStroopsE "1e5" = Except.ok 1000000000000 ∧
    toStroopsE "1e400" = Except.error "cannot convert float infinity to integer" ∧
    toStroopsE "nan" = Except.error "cannot convert float NaN to integer" ∧
    toStroopsE "1__0" = Except.error (floatParseErr "1__0") :=
  ⟨rfl, rfl, rfl, rfl, rfl, rfl⟩

/-! ## Supporting lemmas about the poller -/

/-- A query whose reported status is known is an ordinary `Except.ok`. -/
theorem statusOf_eq_some {x : QueryRes} {s : TxStatus}
    (h : statusOf x = some s) : ∃ r, x = Except.ok r ∧ r.status = s := by
  cases x with
  | error e => exact absurd h (by simp [statusOf])
  | ok r =>
    refine ⟨r, rfl, ?_⟩
    simpa [statusOf] using h

/-- A non-terminal query attempt raised or reported `NOT_FOUND`. -/
theorem nonTermB_cases {x : QueryRes} (h : nonTermB x = true) :
    x = Except.error () ∨ ∃ r, x = Except.ok r ∧ r.status = TxStatus.notFound := by
  cases x with
  | error e => exact Or.inl rfl
  | ok r =>
    refine Or.inr ⟨r, rfl, ?_⟩
    simpa [nonTermB] using h

/-- Running the outer loop across `m` non-terminal attempts: the trace grows
by `m` query/sleep pairs and polling continues with the remaining budget. -/
theorem pollOuter_skip (q1 : ℕ → QueryRes) (submit2 : ℕ → Except Unit String)
    (q2 : ℕ → ℕ → QueryRes) (m : ℕ) :
    ∀ (i fuel : ℕ), m ≤ fuel → (∀ k, k < m → nonTermB (q1 (i + k)) = true) →
      pollOuter q1 submit2 q2 i fuel =
        ((pollOuter q1 submit2 q2 (i + m) (fuel - m)).1,
         outerTrace i m ++ (pollOuter q1 submit2 q2 (i + m) (fuel - m)).2) := by
  induction m with
  | zero =>
    intro i fuel _ _
    simp [outerTrace]
  | succ m ih =>
    intro i fuel hle hnt
    obtain ⟨fuel', rfl⟩ : ∃ f, fuel = f + 1 := ⟨fuel - 1, by omega⟩
    have h0 : nonTermB (q1 i) = true := by simpa using hnt 0 (by omega)
    have hstep : pollOuter q1 submit2 q2 i (fuel' + 1) =
        ((pollOuter q1 submit2 q2 (i + 1) fuel').1,
         Ev.q1 i :: Ev.sleep :: (pollOuter q1 submit2 q2 (i + 1) fuel').2) := by
      rcases nonTermB_cases h0 with hq | ⟨r, hq, hs⟩
      · simp [pollOuter, hq]
      · simp [pollOuter, hq, hs]
    have hrest := ih (i + 1) fuel' (by omega)
      (fun k hk => by
        have h := hnt (k + 1) (by omega)
        have e : i + 1 + k = i + (k + 1) := by omega
        rw [e]
        exact h)
    have harith1 : i + 1 + m = i + (m + 1) := by omega
    have harith2 : fuel' - m = fuel' + 1 - (m + 1) := by omega
    rw [hstep, hrest, harith1, harith2]
    simp [outerTrace]

/-- Running the inner loop across `m` `NOT_FOUND` attempts: the trace grows
by `m` query/sleep pairs and polling continues with the remaining budget. -/
theorem pollInner_skip (q : ℕ → QueryRes) (h2 : String) (i : ℕ) (m : ℕ) :
    ∀ (j fuel : ℕ), m ≤ fuel →
      (∀ k, k < m → statusOf (q (j + k)) = some TxStatus.notFound) →
      pollInner q h2 i j fuel =
        ((pollInner q h2 i (j + m) (fuel - m)).1,
         innerTrace i j m ++ (pollInner q h2 i (j + m) (fuel - m)).2) := by
  induction m with
  | zero =>
    intro j fuel _ _
    simp [innerTrace]
  | succ m ih =>
    intro j fuel hle hnt
    obtain ⟨fuel', rfl⟩ : ∃ f, fuel = f + 1 := ⟨fuel - 1, by omega⟩
    obtain ⟨r, hq, hs⟩ := statusOf_eq_some (by simpa using hnt 0 (by omega))
    have hstep : pollInner q h2 i j (fuel' + 1) =
        ((pollInner q h2 i (j + 1) fuel').1,
         Ev.q2 i j :: Ev.sleep :: (pollInner q h2 i (j + 1) fuel').2) := by
      simp [pollInner, hq, hs]
    have hrest := ih (j + 1) fuel' (by omega)
      (fun k hk => by
        have h := hnt (k + 1) (by omega)
        have e : j + 1 + k = j + (k + 1) := by omega
        rw [e]
        exact h)
    have harith1 : j + 1 + m = j + (m + 1) := by omega
    have harith2 : fuel' - m = fuel' + 1 - (m + 1) := by omega
    rw [hstep, hrest, harith1, harith2]
    simp [innerTrace]

/-! ## Claims about the deployment poller -/

/-- C2: if every status query of the run reports the non-terminal status
(`NOT_FOUND`, neither `SUCCESS` nor `FAILED`), the poller performs exactly 60
query attempts — the trace is the alternation of a query and a fixed
2-second sleep, with 60 query events — and then reports the timeout failure
(`exit(1)` after the timeout message). -/
theorem C2_timeout_after_60 (q1 : ℕ → QueryRes) (submit2 : ℕ → Except Unit String)
    (q2 : ℕ → ℕ → QueryRes) (h : allNotFound q1 60 = true) :
    deployPoll q1 submit2 q2 = (DeployOutcome.timeout, outerTrace 0 60) ∧
    (outerTrace 0 60).countP isQuery = 60 := by
  have hall : ∀ k, k < 60 → statusOf (q1 k) = some TxStatus.notFound := by
    intro k hk
    have h' := List.all_eq_true.mp h k (List.mem_range.mpr hk)
    simpa using h'
  constructor
  · have hskip := pollOuter_skip q1 submit2 q2 60 0 60 le_rfl
      (fun k hk => by
        obtain ⟨r, hx, hs⟩ := statusOf_eq_some (by simpa using hall k hk)
        simp [nonTermB, hx, hs])
    have hzero : pollOuter q1 submit2 q2 (0 + 60) (60 - 60) =
        (DeployOutcome.timeout, []) := rfl
    rw [deployPoll, hskip, hzero]
    simp
  · decide

/-- Witness for C2: a run whose upload-status oracle always reports
`NOT_FOUND` times out after its 60 attempts. -/
theorem C2_timeout_after_60_witness :
    allNotFound notFoundQ1 60 = true ∧
    (deployPoll notFoundQ1 errSub errQ2 = (DeployOutcome.timeout, outerTrace 0 60) ∧
      (outerTrace 0 60).countP isQuery = 60) :=
  ⟨by decide, C2_timeout_after_60 notFoundQ1 errSub errQ2 (by decide)⟩

/-- C3 counterexample: when every upload query reports `SUCCESS` but the
create-contract submission always raises, the first status query of the run
reports `SUCCESS` (with no earlier query at all), yet the poller does not
stop polling that transaction handle — attempt 1 queries it again — and the
run ends in the timeout failure instead of returning success. -/
theorem C3_post_success_repoll :
    statusOf (succQ1 0) = some TxStatus.success ∧
    Ev.q1 1 ∈ (deployPoll succQ1 errSub errQ2).2 ∧
    (deployPoll succQ1 errSub errQ2).1 = DeployOutcome.timeout := by
  refine ⟨rfl, by decide, by decide⟩

/-- C3 (amended): if the first `a` upload queries are non-terminal and upload
attempt `a` reports `SUCCESS`, and the post-success actions do not raise —
the create-contract submission succeeds and the `n`-th deploy query
(`n ≤ 60`, earlier ones `NOT_FOUND`) reports `SUCCESS` — then the run stops
polling at that query and returns success carrying the deployment hash that
the script reports as the contract id: the trace ends at the successful
query, with no further query on either transaction handle and no further
sleep. -/
theorem C3_success_stops_polling (q1 : ℕ → QueryRes)
    (submit2 : ℕ → Except Unit String) (q2 : ℕ → ℕ → QueryRes)
    (a n : ℕ) (h2 p1 p2 : String) (ha : a < 60) (hn1 : 1 ≤ n) (hn : n ≤ 60)
    (hpre : allNonTerm q1 a = true)
    (hq1 : q1 a = Except.ok ⟨TxStatus.success, p1⟩)
    (hsub : submit2 a = Except.ok h2)
    (hpre2 : allNotFound (q2 a) (n - 1) = true)
    (hq2 : q2 a (n - 1) = Except.ok ⟨TxStatus.success, p2⟩) :
    deployPoll q1 submit2 q2 =
      (DeployOutcome.ok h2,
       outerTrace 0 a ++ Ev.q1 a :: Ev.sub a ::
         (innerTrace a 0 (n - 1) ++ [Ev.q2 a (n - 1)])) := by
  have hpre' : ∀ k, k < a → nonTermB (q1 (0 + k)) = true := by
    intro k hk
    have h' := List.all_eq_true.mp hpre k (List.mem_range.mpr hk)
    simpa using h'
  have hskip := pollOuter_skip q1 submit2 q2 a 0 60 (by omega) hpre'
  have hinskip := pollInner_skip (q2 a) h2 a (n - 1) 0 60 (by omega)
    (fun k hk => by
      have h' := List.all_eq_true.mp hpre2 k (List.mem_range.mpr hk)
      simpa using h')
  obtain ⟨g, hg⟩ : ∃ g, 60 - (n - 1) = g + 1 := ⟨60 - n, by omega⟩
  have hinner : pollInner (q2 a) h2 a 0 60 =
      (InnerRes.ret h2, innerTrace a 0 (n - 1) ++ [Ev.q2 a (n - 1)]) := by
    rw [hinskip]
    rw [hg]
    simp [pollInner, Nat.zero_add, hq2]
  obtain ⟨f, hf⟩ : ∃ f, 60 - a = f + 1 := ⟨59 - a, by omega⟩
  have houter : pollOuter q1 submit2 q2 a (60 - a) =
      (DeployOutcome.ok h2,
       Ev.q1 a :: Ev.sub a :: (innerTrace a 0 (n - 1) ++ [Ev.q2 a (n - 1)])) := by
    rw [hf]
    simp [pollOuter, hq1, hsub, hinner]
  rw [deployPoll, hskip]
  rw [Nat.zero_add, houter]

/-- Witness for C3: success at the first upload query and the first deploy
query returns the deployment hash at once. -/
theorem C3_success_stops_polling_witness :
    (0 < 60 ∧ 1 ≤ 1 ∧ (1 : ℕ) ≤ 60) ∧
    allNonTerm succQ1 0 = true ∧
    succQ1 0 = Except.ok ⟨TxStatus.success, "meta1"⟩ ∧
    okSub 0 = Except.ok "HASH2" ∧
    allNotFound (succQ2 0) 0 = true ∧
    succQ2 0 0 = Except.ok ⟨TxStatus.success, "meta2"⟩ ∧
    deployPoll succQ1 okSub succQ2 =
      (DeployOutcome.ok "HASH2",
       outerTrace 0 0 ++ Ev.q1 0 :: Ev.sub 0 ::
         (innerTrace 0 0 0 ++ [Ev.q2 0 0])) :=
  ⟨⟨by decide, by decide, by decide⟩, by decide, rfl, rfl, by decide, rfl,
   C3_success_stops_polling succQ1 okSub succQ2 0 1 "HASH2" "meta1" "meta2"
     (by decide) (by decide) (by decide) (by decide) rfl rfl (by decide) rfl⟩

/-- C8: an exception raised by a status query inside the retry loop is
swallowed by `except Exception: pass`, never surfaced: the attempt is treated
exactly like a non-terminal one — the query is recorded, the fixed 2-second
sleep happens, and polling continues with the remaining attempt budget; the
final outcome is whatever the remaining attempts produce. -/
theorem C8_query_exception_swallowed (q1 : ℕ → QueryRes)
    (submit2 : ℕ → Except Unit String) (q2 : ℕ → ℕ → QueryRes) (i fuel : ℕ)
    (hq : q1 i = Except.error ()) :
    pollOuter q1 submit2 q2 i (fuel + 1) =
      ((pollOuter q1 submit2 q2 (i + 1) fuel).1,
       Ev.q1 i :: Ev.sleep :: (pollOuter q1 submit2 q2 (i + 1) fuel).2) := by
  simp [pollOuter, hq]

/-- Witness for C8: a first-attempt exception leads to a sleep and a second
attempt, with the exception never surfaced. -/
theorem C8_query_exception_swallowed_witness :
    errQ1 0 = Except.error () ∧
    pollOuter errQ1 errSub errQ2 0 (59 + 1) =
      ((pollOuter errQ1 errSub errQ2 1 59).1,
       Ev.q1 0 :: Ev.sleep :: (pollOuter errQ1 errSub errQ2 1 59).2) :=
  ⟨rfl, C8_query_exception_swallowed errQ1 errSub errQ2 0 59 rfl⟩

/-- In the inner loop, a query reporting `FAILED` can occur only as the very
last trace event, and then the result is the `exit(1)` outcome; in every
other outcome no query of the inner trace reported `FAILED`. -/
theorem pollInner_failed_inv (q1 : ℕ → QueryRes) (q2 : ℕ → ℕ → QueryRes)
    (h2 : String) (i : ℕ) :
    ∀ (fuel j : ℕ),
      ((∃ r, (pollInner (q2 i) h2 i j fuel).1 = InnerRes.fail r) →
        ∃ l e, (pollInner (q2 i) h2 i j fuel).2 = l ++ [e] ∧
          (∀ x ∈ l, failedQB q1 q2 x = false) ∧ failedQB q1 q2 e = true) ∧
      ((∀ r, (pollInner (q2 i) h2 i j fuel).1 ≠ InnerRes.fail r) →
        ∀ x ∈ (pollInner (q2 i) h2 i j fuel).2, failedQB q1 q2 x = false) := by
  intro fuel
  induction fuel with
  | zero =>
    intro j
    constructor
    · rintro ⟨r, hr⟩
      exact absurd hr (by simp [pollInner])
    · intro _ x hx
      exact absurd hx (by simp [pollInner])
  | succ fuel ih =>
    intro j
    have hsubf : failedQB q1 q2 Ev.sleep = false := by simp [failedQB, evStatus]
    rcases hq : q2 i j with e | r
    · cases e
      have hv1 : (pollInner (q2 i) h2 i j (fuel + 1)).1 = InnerRes.exn := by
        simp [pollInner, hq]
      have hv2 : (pollInner (q2 i) h2 i j (fuel + 1)).2 = [Ev.q2 i j] := by
        simp [pollInner, hq]
      constructor
      · rintro ⟨r, hr⟩
        rw [hv1] at hr
        exact absurd hr (by simp)
      · intro _ x hx
        rw [hv2] at hx
        simp at hx
        subst hx
        simp [failedQB, evStatus, statusOf, hq]
    · have hqf : failedQB q1 q2 (Ev.q2 i j) = decide (r.status = TxStatus.failed) := by
        simp [failedQB, evStatus, statusOf, hq]
      rcases hs : r.status with _ | _ | _
      · -- SUCCESS
        have hv1 : (pollInner (q2 i) h2 i j (fuel + 1)).1 = InnerRes.ret h2 := by
          simp [pollInner, hq, hs]
        have hv2 : (pollInner (q2 i) h2 i j (fuel + 1)).2 = [Ev.q2 i j] := by
          simp [pollInner, hq, hs]
        constructor
        · rintro ⟨r2, hr⟩
          rw [hv1] at hr
          exact absurd hr (by simp)
        · intro _ x hx
          rw [hv2] at hx
          simp at hx
          subst hx
          rw [hqf, hs]
          decide
      · -- FAILED
        have hv1 : (pollInner (q2 i) h2 i j (fuel + 1)).1 = InnerRes.fail r := by
          simp [pollInner, hq, hs]
        have hv2 : (pollInner (q2 i) h2 i j (fuel + 1)).2 = [Ev.q2 i j] := by
          simp [pollInner, hq, hs]
        constructor
        · intro _
          refine ⟨[], Ev.q2 i j, by rw [hv2]; rfl, by simp, ?_⟩
          rw [hqf, hs]
          decide
        · intro hno
          exact absurd hv1 (hno r)
      · -- NOT_FOUND
        have hv1 : (pollInner (q2 i) h2 i j (fuel + 1)).1 =
            (pollInner (q2 i) h2 i (j + 1) fuel).1 := by
          simp [pollInner, hq, hs]
        have hv2 : (pollInner (q2 i) h2 i j (fuel + 1)).2 =
            Ev.q2 i j :: Ev.sleep :: (pollInner (q2 i) h2 i (j + 1) fuel).2 := by
          simp [pollInner, hq, hs]
        have hnf : failedQB q1 q2 (Ev.q2 i j) = false := by
          rw [hqf, hs]
          decide
        obtain ⟨ih1, ih2⟩ := ih (j + 1)
        constructor
        · rintro ⟨r2, hr⟩
          rw [hv1] at hr
          obtain ⟨l, e, hl, hnl, hfe⟩ := ih1 ⟨r2, hr⟩
          refine ⟨Ev.q2 i j :: Ev.sleep :: l, e, by rw [hv2, hl]; rfl, ?_, hfe⟩
          intro x hx
          rcases List.mem_cons.mp hx with rfl | hx
          · exact hnf
          rcases List.mem_cons.mp hx with rfl | hx
          · exact hsubf
          exact hnl x hx
        · intro hno x hx
          rw [hv2] at hx
          have hno' : ∀ r2, (pollInner (q2 i) h2 i (j + 1) fuel).1 ≠ InnerRes.fail r2 := by
            intro r2 hr
            exact hno r2 (by rw [hv1]; exact hr)
          rcases List.mem_cons.mp hx with rfl | hx
          · exact hnf
          rcases List.mem_cons.mp hx with rfl | hx
          · exact hsubf
          exact ih2 hno' x hx

/-- In the whole outer run, a query reporting `FAILED` can occur only as the
very last trace event, and then the outcome models `exit(1)`; in every other
outcome no query of the trace reported `FAILED`. -/
theorem pollOuter_failed_inv (q1 : ℕ → QueryRes) (submit2 : ℕ → Except Unit String)
    (q2 : ℕ → ℕ → QueryRes) :
    ∀ (fuel i : ℕ),
      (isExitFail (pollOuter q1 submit2 q2 i fuel).1 = true →
        ∃ l e, (pollOuter q1 submit2 q2 i fuel).2 = l ++ [e] ∧
          (∀ x ∈ l, failedQB q1 q2 x = false) ∧ failedQB q1 q2 e = true) ∧
      (isExitFail (pollOuter q1 submit2 q2 i fuel).1 = false →
        ∀ x ∈ (pollOuter q1 submit2 q2 i fuel).2, failedQB q1 q2 x = false) := by
  intro fuel
  induction fuel with
  | zero =>
    intro i
    constructor
    · intro h
      exact absurd h (by simp [pollOuter, isExitFail])
    · intro _ x hx
      exact absurd hx (by simp [pollOuter])
  | succ fuel ih =>
    intro i
    have hslf : failedQB q1 q2 Ev.sleep = false := by simp [failedQB, evStatus]
    have hsbf : ∀ k, failedQB q1 q2 (Ev.sub k) = false := by
      intro k
      simp [failedQB, evStatus]
    rcases hq : q1 i with e | r
    · cases e
      have hv1 : (pollOuter q1 submit2 q2 i (fuel + 1)).1 =
          (pollOuter q1 submit2 q2 (i + 1) fuel).1 := by
        simp [pollOuter, hq]
      have hv2 : (pollOuter q1 submit2 q2 i (fuel + 1)).2 =
          Ev.q1 i :: Ev.sleep :: (pollOuter q1 submit2 q2 (i + 1) fuel).2 := by
        simp [pollOuter, hq]
      have hnf : failedQB q1 q2 (Ev.q1 i) = false := by
        simp [failedQB, evStatus, statusOf, hq]
      obtain ⟨ih1, ih2⟩ := ih (i + 1)
      constructor
      · intro hex
        rw [hv1] at hex
        obtain ⟨l, e, hl, hnl, hfe⟩ := ih1 hex
        refine ⟨Ev.q1 i :: Ev.sleep :: l, e, by rw [hv2, hl]; rfl, ?_, hfe⟩
        intro x hx
        rcases List.mem_cons.mp hx with rfl | hx
        · exact hnf
        rcases List.mem_cons.mp hx with rfl | hx
        · exact hslf
        exact hnl x hx
      · intro hex x hx
        rw [hv1] at hex
        rw [hv2] at hx
        rcases List.mem_cons.mp hx with rfl | hx
        · exact hnf
        rcases List.mem_cons.mp hx with rfl | hx
        · exact hslf
        exact ih2 hex x hx
    · have hqf : failedQB q1 q2 (Ev.q1 i) = decide (r.status = TxStatus.failed) := by
        simp [failedQB, evStatus, statusOf, hq]
      rcases hs : r.status with _ | _ | _
      · -- SUCCESS at the upload query
        have hnf : failedQB q1 q2 (Ev.q1 i) = false := by
          rw [hqf, hs]
          decide
        rcases hsub : submit2 i with e2 | h2
        · cases e2
          have hv1 : (pollOuter q1 submit2 q2 i (fuel + 1)).1 =
              (pollOuter q1 submit2 q2 (i + 1) fuel).1 := by
            simp [pollOuter, hq, hs, hsub]
          have hv2 : (pollOuter q1 submit2 q2 i (fuel + 1)).2 =
              Ev.q1 i :: Ev.sub i :: Ev.sleep ::
                (pollOuter q1 submit2 q2 (i + 1) fuel).2 := by
            simp [pollOuter, hq, hs, hsub]
          obtain ⟨ih1, ih2⟩ := ih (i + 1)
          constructor
          · intro hex
            rw [hv1] at hex
            obtain ⟨l, e, hl, hnl, hfe⟩ := ih1 hex
            refine ⟨Ev.q1 i :: Ev.sub i :: Ev.sleep :: l, e,
              by rw [hv2, hl]; rfl, ?_, hfe⟩
            intro x hx
            rcases List.mem_cons.mp hx with rfl | hx
            · exact hnf
            rcases List.mem_cons.mp hx with rfl | hx
            · exact hsbf i
            rcases List.mem_cons.mp hx with rfl | hx
            · exact hslf
            exact hnl x hx
          · intro hex x hx
            rw [hv1] at hex
            rw [hv2] at hx
            rcases List.mem_cons.mp hx with rfl | hx
            · exact hnf
            rcases List.mem_cons.mp hx with rfl | hx
            · exact hsbf i
            rcases List.mem_cons.mp hx with rfl | hx
            · exact hslf
            exact ih2 hex x hx
        · rcases hpi : pollInner (q2 i) h2 i 0 60 with ⟨ir, evs⟩
          rcases ir with h | r2 | _ | _
          · -- inner returned the hash
            have hv1 : (pollOuter q1 submit2 q2 i (fuel + 1)).1 =
                DeployOutcome.ok h := by
              simp [pollOuter, hq, hs, hsub, hpi]
            have hv2 : (pollOuter q1 submit2 q2 i (fuel + 1)).2 =
                Ev.q1 i :: Ev.sub i :: evs := by
              simp [pollOuter, hq, hs, hsub, hpi]
            have hin : ∀ x ∈ evs, failedQB q1 q2 x = false := by
              have h' := (pollInner_failed_inv q1 q2 h2 i 60 0).2
                (fun r2 hr => by
                  rw [hpi] at hr
                  exact absurd hr (by simp))
              rw [hpi] at h'
              exact h'
            constructor
            · intro hex
              rw [hv1] at hex
              exact absurd hex (by simp [isExitFail])
            · intro _ x hx
              rw [hv2] at hx
              rcases List.mem_cons.mp hx with rfl | hx
              · exact hnf
              rcases List.mem_cons.mp hx with rfl | hx
              · exact hsbf i
              exact hin x hx
          · -- inner hit FAILED, exit(1)
            have hv1 : (pollOuter q1 submit2 q2 i (fuel + 1)).1 =
                DeployOutcome.failedInner r2 := by
              simp [pollOuter, hq, hs, hsub, hpi]
            have hv2 : (pollOuter q1 submit2 q2 i (fuel + 1)).2 =
                Ev.q1 i :: Ev.sub i :: evs := by
              simp [pollOuter, hq, hs, hsub, hpi]
            have hinner := (pollInner_failed_inv q1 q2 h2 i 60 0).1
              ⟨r2, by rw [hpi]⟩
            rw [hpi] at hinner
            obtain ⟨l, e, hl, hnl, hfe⟩ := hinner
            have hl' : evs = l ++ [e] := hl
            constructor
            · intro _
              refine ⟨Ev.q1 i :: Ev.sub i :: l, e, by rw [hv2, hl']; rfl, ?_, hfe⟩
              intro x hx
              rcases List.mem_cons.mp hx with rfl | hx
              · exact hnf
              rcases List.mem_cons.mp hx with rfl | hx
              · exact hsbf i
              exact hnl x hx
            · intro hex
              rw [hv1] at hex
              exact absurd hex (by simp [isExitFail])
          · -- inner timed out, deploy_contract returns None
            have hv1 : (pollOuter q1 submit2 q2 i (fuel + 1)).1 =
                DeployOutcome.retNone := by
              simp [pollOuter, hq, hs, hsub, hpi]
            have hv2 : (pollOuter q1 submit2 q2 i (fuel + 1)).2 =
                Ev.q1 i :: Ev.sub i :: evs := by
              simp [pollOuter, hq, hs, hsub, hpi]
            have hin : ∀ x ∈ evs, failedQB q1 q2 x = false := by
              have h' := (pollInner_failed_inv q1 q2 h2 i 60 0).2
                (fun r2 hr => by
                  rw [hpi] at hr
                  exact absurd hr (by simp))
              rw [hpi] at h'
              exact h'
            constructor
            · intro hex
              rw [hv1] at hex
              exact absurd hex (by simp [isExitFail])
            · intro _ x hx
              rw [hv2] at hx
              rcases List.mem_cons.mp hx with rfl | hx
              · exact hnf
              rcases List.mem_cons.mp hx with rfl | hx
              · exact hsbf i
              exact hin x hx
          · -- inner query raised; outer handler swallows and retries
            have hv1 : (pollOuter q1 submit2 q2 i (fuel + 1)).1 =
                (pollOuter q1 submit2 q2 (i + 1) fuel).1 := by
              simp [pollOuter, hq, hs, hsub, hpi]
            have hv2 : (pollOuter q1 submit2 q2 i (fuel + 1)).2 =
                Ev.q1 i :: Ev.sub i ::
                  (evs ++ Ev.sleep :: (pollOuter q1 submit2 q2 (i + 1) fuel).2) := by
              simp [pollOuter, hq, hs, hsub, hpi]
            have hin : ∀ x ∈ evs, failedQB q1 q2 x = false := by
              have h' := (pollInner_failed_inv q1 q2 h2 i 60 0).2
                (fun r2 hr => by
                  rw [hpi] at hr
                  exact absurd hr (by simp))
              rw [hpi] at h'
              exact h'
            obtain ⟨ih1, ih2⟩ := ih (i + 1)
            constructor
            · intro hex
              rw [hv1] at hex
              obtain ⟨l, e, hl, hnl, hfe⟩ := ih1 hex
              refine ⟨Ev.q1 i :: Ev.sub i :: (evs ++ Ev.sleep :: l), e, ?_, ?_, hfe⟩
              · rw [hv2, hl]
                simp
              · intro x hx
                rcases List.mem_cons.mp hx with rfl | hx
                · exact hnf
                rcases List.mem_cons.mp hx with rfl | hx
                · exact hsbf i
                rcases List.mem_append.mp hx with hx | hx
                · exact hin x hx
                rcases List.mem_cons.mp hx with rfl | hx
                · exact hslf
                exact hnl x hx
            · intro hex x hx
              rw [hv1] at hex
              rw [hv2] at hx
              rcases List.mem_cons.mp hx with rfl | hx
              · exact hnf
              rcases List.mem_cons.mp hx with rfl | hx
              · exact hsbf i
              rcases List.mem_append.mp hx with hx | hx
              · exact hin x hx
              rcases List.mem_cons.mp hx with rfl | hx
              · exact hslf
              exact ih2 hex x hx
      · -- FAILED at the upload query, exit(1)
        have hv1 : (pollOuter q1 submit2 q2 i (fuel + 1)).1 =
            DeployOutcome.failedOuter r := by
          simp [pollOuter, hq, hs]
        have hv2 : (pollOuter q1 submit2 q2 i (fuel + 1)).2 = [Ev.q1 i] := by
          simp [pollOuter, hq, hs]
        constructor
        · intro _
          refine ⟨[], Ev.q1 i, by rw [hv2]; rfl, by simp, ?_⟩
          rw [hqf, hs]
          decide
        · intro hex
          rw [hv1] at hex
          exact absurd hex (by simp [isExitFail])
      · -- NOT_FOUND at the upload query
        have hv1 : (pollOuter q1 submit2 q2 i (fuel + 1)).1 =
            (pollOuter q1 submit2 q2 (i + 1) fuel).1 := by
          simp [pollOuter, hq, hs]
        have hv2 : (pollOuter q1 submit2 q2 i (fuel + 1)).2 =
            Ev.q1 i :: Ev.sleep :: (pollOuter q1 submit2 q2 (i + 1) fuel).2 := by
          simp [pollOuter, hq, hs]
        have hnf : failedQB q1 q2 (Ev.q1 i) = false := by
          rw [hqf, hs]
          decide
        obtain ⟨ih1, ih2⟩ := ih (i + 1)
        constructor
        · intro hex
          rw [hv1] at hex
          obtain ⟨l, e, hl, hnl, hfe⟩ := ih1 hex
          refine ⟨Ev.q1 i :: Ev.sleep :: l, e, by rw [hv2, hl]; rfl, ?_, hfe⟩
          intro x hx
          rcases List.mem_cons.mp hx with rfl | hx
          · exact hnf
          rcases List.mem_cons.mp hx with rfl | hx
          · exact hslf
          exact hnl x hx
        · intro hex x hx
          rw [hv1] at hex
          rw [hv2] at hx
          rcases List.mem_cons.mp hx with rfl | hx
          · exact hnf
          rcases List.mem_cons.mp hx with rfl | hx
          · exact hslf
          exact ih2 hex x hx

/-- C1: in every run of the deployment poller, any status query that reports
`FAILED` is the final event of the run — the poller aborts on that same
attempt with the non-retryable `exit(1)` outcome, and no further status
query, submission or delay is performed after the first `FAILED` status. -/
theorem C1_failed_aborts_run (q1 : ℕ → QueryRes) (submit2 : ℕ → Except Unit String)
    (q2 : ℕ → ℕ → QueryRes) (l r : List Ev) (e : Ev)
    (hsplit : (deployPoll q1 submit2 q2).2 = l ++ e :: r)
    (hfail : failedQB q1 q2 e = true) :
    r = [] ∧ isExitFail (deployPoll q1 submit2 q2).1 = true := by
  have hinv := pollOuter_failed_inv q1 submit2 q2 60 0
  have he : e ∈ (deployPoll q1 submit2 q2).2 := by
    rw [hsplit]
    exact List.mem_append.mpr (Or.inr (List.mem_cons_self e r))
  rcases hex : isExitFail (deployPoll q1 submit2 q2).1 with _ | _
  · exfalso
    have h0 : failedQB q1 q2 e = false := hinv.2 hex e he
    rw [h0] at hfail
    exact Bool.noConfusion hfail
  · obtain ⟨l', e', hl', hnl, hfe⟩ := hinv.1 hex
    have hcomb : l ++ e :: r = l' ++ [e'] := by
      have hsp : (deployPoll q1 submit2 q2).2 = l' ++ [e'] := hl'
      rw [← hsp, hsplit]
    refine ⟨?_, rfl⟩
    rcases List.eq_nil_or_concat r with rfl | ⟨r₁, x, rfl⟩
    · rfl
    · exfalso
      have hshape : (l ++ e :: r₁) ++ [x] = l' ++ [e'] := by
        rw [← hcomb]
        simp
      have hdrop : l ++ e :: r₁ = l' := by
        have h := congrArg List.dropLast hshape
        rw [List.dropLast_concat, List.dropLast_concat] at h
        exact h
      have hmem : e ∈ l' := by
        rw [← hdrop]
        exact List.mem_append.mpr (Or.inr (List.mem_cons_self e r₁))
      have h0 := hnl e hmem
      rw [h0] at hfail
      exact Bool.noConfusion hfail

/-- Witness for C1: a first-attempt `FAILED` report ends the run at once with
the `exit(1)` outcome. -/
theorem C1_failed_aborts_run_witness :
    (deployPoll failQ1 errSub errQ2).2 = [] ++ Ev.q1 0 :: [] ∧
    failedQB failQ1 errQ2 (Ev.q1 0) = true ∧
    (([] : List Ev) = [] ∧ isExitFail (deployPoll failQ1 errSub errQ2).1 = true) :=
  ⟨rfl, rfl, C1_failed_aborts_run failQ1 errSub errQ2 [] [] (Ev.q1 0) rfl rfl⟩

end ChainPe
